import Mathlib

/-!
Shallow embedding of the firebase-backend server (src/server.js).

The server keeps its state in three external stores: Firebase Auth
(identity records), Firestore (collections `users` and `files`) and a
storage bucket (objects addressed by path).  We model the reachable
state of those stores explicitly and translate each Express handler
into a pure function from state (plus request data and fault flags for
the external calls) to state and response.
-/

/-- An identity record held by Firebase Auth (`admin.auth().createUser`). -/
structure AuthUser where
  uid : String
  email : String
  password : String
  displayName : String
deriving DecidableEq

/-- A document of the Firestore `users` collection, as written by the
signup handler: `{email, displayName, createdAt, uploads}`. -/
structure UserDoc where
  email : String
  displayName : String
  createdAt : Nat
  uploads : Int
deriving DecidableEq

/-- A document of the Firestore `files` collection, as written by the
upload handler, together with its document id. -/
structure FileRecord where
  id : Nat
  userId : String
  fileName : String
  storagePath : String
  fileSize : Nat
  mimeType : String
  publicUrl : String
  uploadedAt : Nat
deriving DecidableEq

/-- The multipart file received by multer (`req.file`). -/
structure FileData where
  originalname : String
  size : Nat
  mimetype : String
deriving DecidableEq

/-- The combined state of the external stores.  `now` is the wall
clock read by `Date.now()` and by Firestore server timestamps;
`nextUid` and `nextFileId` model the id assignment of Firebase Auth
and Firestore (opaque, fresh ids). -/
structure ServerState where
  authUsers : List AuthUser
  users : List (String × UserDoc)
  files : List FileRecord
  objects : List String
  nextUid : Nat
  nextFileId : Nat
  now : Nat
deriving DecidableEq

def initialState : ServerState := ⟨[], [], [], [], 0, 0, 0⟩

/-- Opaque fresh uid assigned by Firebase Auth; modelled as a decimal
counter tag. -/
def mkUid (n : Nat) : String := "u" ++ Nat.repr n

/-- Model of `admin.auth().getUserByEmail`. -/
def findAuthByEmail (s : ServerState) (email : String) : Option AuthUser :=
  s.authUsers.find? (fun au => au.email == email)

/-- Model of `admin.auth().getUser(token)`: the verifyToken middleware
accepts a uid directly as bearer token. -/
def findAuthByUid (s : ServerState) (token : String) : Option AuthUser :=
  s.authUsers.find? (fun au => au.uid == token)

/-- The verifyToken middleware succeeds exactly when the bearer token
is the uid of an existing Auth user. -/
def validToken (s : ServerState) (token : String) : Bool :=
  (findAuthByUid s token).isSome

/-- Point lookup of `db.collection('users').doc(uid)`. -/
def lookupUserDoc (s : ServerState) (uid : String) : Option UserDoc :=
  (s.users.find? (fun p => p.1 == uid)).map (fun p => p.2)

/-- Model of `db.collection('users').doc(uid).set(doc)`: replaces the
document at that key. -/
def setUserDoc (users : List (String × UserDoc)) (uid : String) (d : UserDoc) :
    List (String × UserDoc) :=
  users.filter (fun p => p.1 != uid) ++ [(uid, d)]

/-- Model of `doc(uid).update({uploads: increment(d)})`: adds `d` to
the `uploads` field of the document at key `uid`. -/
def updateUploads (users : List (String × UserDoc)) (uid : String) (d : Int) :
    List (String × UserDoc) :=
  users.map (fun p => if p.1 == uid then (p.1, { p.2 with uploads := p.2.uploads + d }) else p)

/-- JavaScript `String.prototype.split` with a single-character
separator, folded to return the first segment and the remaining
segments. -/
def jsSplitChar (c : Char) : List Char → List Char × List (List Char)
  | [] => ([], [])
  | x :: xs =>
    let r := jsSplitChar c xs
    if x = c then ([], r.1 :: r.2) else (x :: r.1, r.2)

/-- JavaScript `s.split(c)[0]`. -/
def jsSplitFirst (c : Char) (s : String) : String := ⟨(jsSplitChar c s.data).1⟩

/-- JavaScript `v || fb` for an optional string: `undefined` and the
empty string are falsy. -/
def jsOrElse (v : Option String) (fb : String) : String :=
  match v with
  | none => fb
  | some s => if s = "" then fb else s

/-- Specification-side description of the default display name: the
portion of the email address before the first at-sign. -/
def localPart (email : String) : String :=
  ⟨email.data.takeWhile (fun a => a ≠ '@')⟩

inductive SignupResult
  | created (uid email displayName : String)
  | badRequest
deriving DecidableEq

/-- Handler of POST /api/auth/signup.  Validates input, creates the
Auth user (fails on duplicate email) and writes the `users` document
with `uploads: 0`. -/
def signup (s : ServerState) (email password : String) (displayName : Option String) :
    ServerState × SignupResult :=
  if email = "" ∨ password = "" then (s, .badRequest)
  else if (findAuthByEmail s email).isSome then (s, .badRequest)
  else
    let uid := mkUid s.nextUid
    let name := jsOrElse displayName (jsSplitFirst '@' email)
    ({ s with authUsers := s.authUsers ++ [⟨uid, email, password, name⟩],
              users := setUserDoc s.users uid ⟨email, name, s.now, 0⟩,
              nextUid := s.nextUid + 1 },
     .created uid email name)

inductive LoginResult
  | ok (customToken uid displayName : String) (uploads : Int)
  | badRequest
  | invalidCredentials
deriving DecidableEq

/-- Handler of POST /api/auth/login.  Looks the user up by email and
issues a custom token; the submitted password is used only for the
non-emptiness check.  A missing user makes `getUserByEmail` throw,
caught as a 401 response. -/
def login (s : ServerState) (email password : String) : LoginResult :=
  if email = "" ∨ password = "" then .badRequest
  else
    match findAuthByEmail s email with
    | none => .invalidCredentials
    | some au =>
      let userData := lookupUserDoc s au.uid
      let dn := jsOrElse (userData.map (fun d => d.displayName)) au.email
      let up : Int := match userData with | some d => d.uploads | none => 0
      .ok ("customToken:" ++ au.uid) au.uid dn up

/-- Storage bucket name from the environment configuration. -/
def bucketName : String := "bucket"

/-- Object-store path used by the upload handler:
`uploads/UID/TIMESTAMP_ORIGINALNAME` where TIMESTAMP is `Date.now()`. -/
def storagePath (uid : String) (ts : Nat) (name : String) : String :=
  "uploads/" ++ uid ++ "/" ++ Nat.repr ts ++ "_" ++ name

/-- Public URL computed by the upload handler. -/
def publicUrlOf (path : String) : String :=
  "https://storage.googleapis.com/" ++ bucketName ++ "/" ++ path

/-- Fault flags for the four external calls made by the upload
handler, in the order the code performs them. -/
structure UploadFaults where
  writeFails : Bool
  makePublicFails : Bool
  createRecordFails : Bool
  incrementFails : Bool
deriving DecidableEq

def noUploadFaults : UploadFaults := ⟨false, false, false, false⟩

/-- Outcome of the upload handler.  The three `Unhandled` outcomes
arise from an `await` throwing inside the async `stream.on('finish')`
callback: nothing catches the rejection, so no HTTP response is sent
at all. -/
inductive UploadResult
  | ok (id : Nat) (name : String) (size : Nat) (url : String) (mime : String)
  | unauthenticated
  | noFile
  | writeError
  | makePublicUnhandled
  | createRecordUnhandled
  | incrementUnhandled
deriving DecidableEq

/-- HTTP status the upload handler sends, `none` when no response is
sent (an unhandled rejection in the finish callback). -/
def uploadHttpStatus : UploadResult → Option Nat
  | .ok _ _ _ _ _ => some 200
  | .unauthenticated => some 401
  | .noFile => some 400
  | .writeError => some 500
  | .makePublicUnhandled => none
  | .createRecordUnhandled => none
  | .incrementUnhandled => none

/-- Model of the bucket write: storing an object makes its path
present (overwriting any object already at that path). -/
def putObject (objects : List String) (path : String) : List String :=
  if path ∈ objects then objects else objects ++ [path]

/-- Handler of POST /api/upload (after the verifyToken gate).  Streams
the file to the bucket at `storagePath`, then in the finish callback
makes it public, adds the `files` document and increments the user's
`uploads` counter.  A stream error yields a 500; a failure of any
`await` in the finish callback is an unhandled rejection: the handler
stops there, performs no compensation and sends nothing. -/
def upload (s : ServerState) (token : String) (file : Option FileData)
    (f : UploadFaults) : ServerState × UploadResult :=
  if ¬ validToken s token then (s, .unauthenticated)
  else
    match file with
    | none => (s, .noFile)
    | some file =>
      let path := storagePath token s.now file.originalname
      if f.writeFails then (s, .writeError)
      else
        let s₁ := { s with objects := putObject s.objects path }
        if f.makePublicFails then (s₁, .makePublicUnhandled)
        else if f.createRecordFails then (s₁, .createRecordUnhandled)
        else
          let r : FileRecord :=
            ⟨s.nextFileId, token, file.originalname, path, file.size,
              file.mimetype, publicUrlOf path, s.now⟩
          let s₂ := { s₁ with files := s₁.files ++ [r], nextFileId := s.nextFileId + 1 }
          if f.incrementFails then (s₂, .incrementUnhandled)
          else
            ({ s₂ with users := updateUploads s₂.users token 1 },
             .ok r.id file.originalname file.size (publicUrlOf path) file.mimetype)

/-- Fault flags for the three external calls of the delete handler. -/
structure DeleteFaults where
  objectDeleteFails : Bool
  recordDeleteFails : Bool
  decrementFails : Bool
deriving DecidableEq

def noDeleteFaults : DeleteFaults := ⟨false, false, false⟩

/-- Outcome of the delete handler.  The three error outcomes all reach
the handler's single catch block, which answers 500 with the generic
body; the constructor records which stage threw. -/
inductive DeleteResult
  | ok
  | unauthenticated
  | notFound
  | forbidden
  | objectDeleteError
  | recordDeleteError
  | decrementError
deriving DecidableEq

/-- HTTP status sent by the delete handler. -/
def deleteHttpStatus : DeleteResult → Nat
  | .ok => 200
  | .unauthenticated => 401
  | .notFound => 404
  | .forbidden => 403
  | .objectDeleteError => 500
  | .recordDeleteError => 500
  | .decrementError => 500

/-- Handler of DELETE /api/files/:fileId (after the verifyToken gate).
Looks the record up, checks ownership, then deletes the object, the
record and decrements the counter in that order; every `await` is
inside the try block, so the first failing stage aborts the rest and
is answered with a 500. -/
def deleteFile (s : ServerState) (token : String) (fileId : Nat)
    (f : DeleteFaults) : ServerState × DeleteResult :=
  if ¬ validToken s token then (s, .unauthenticated)
  else
    match s.files.find? (fun r => r.id == fileId) with
    | none => (s, .notFound)
    | some r =>
      if r.userId ≠ token then (s, .forbidden)
      else if f.objectDeleteFails then (s, .objectDeleteError)
      else
        let s₁ := { s with objects := s.objects.filter (fun q => q ≠ r.storagePath) }
        if f.recordDeleteFails then (s₁, .recordDeleteError)
        else
          let s₂ := { s₁ with files := s₁.files.filter (fun q => q.id ≠ fileId) }
          if f.decrementFails then (s₂, .decrementError)
          else ({ s₂ with users := updateUploads s₂.users token (-1) }, .ok)

/-- Insertion step of the newest-first ordering used by the files
query (`orderBy('uploadedAt', 'desc')`). -/
def insertDesc (r : FileRecord) : List FileRecord → List FileRecord
  | [] => [r]
  | x :: xs => if x.uploadedAt ≤ r.uploadedAt then r :: x :: xs else x :: insertDesc r xs

/-- Newest-first sort realizing the Firestore `orderBy desc` result. -/
def sortDesc (l : List FileRecord) : List FileRecord :=
  l.foldr insertDesc []

inductive FilesResult
  | ok (count : Nat) (files : List FileRecord)
  | unauthenticated
deriving DecidableEq

/-- Handler of GET /api/files (after the verifyToken gate): the
records whose `userId` equals the caller's uid, newest first, with
their count. -/
def getFiles (s : ServerState) (token : String) : FilesResult :=
  if ¬ validToken s token then .unauthenticated
  else
    let l := sortDesc (s.files.filter (fun r => r.userId == token))
    .ok l.length l

/-- Concrete demonstration states: one signed-up user `u0` who has
uploaded one file (record id 0), then a second user `u1`. -/
def demoState1 : ServerState := (signup initialState "a@b.c" "pw" none).1

def demoFile : FileData := ⟨"f", 3, "t"⟩

def demoState2 : ServerState := (upload demoState1 "u0" (some demoFile) noUploadFaults).1

def demoState3 : ServerState := (signup demoState2 "q@b.c" "pw" none).1

def demoRec : FileRecord :=
  ⟨0, "u0", "f", storagePath "u0" 0 "f", 3, "t", publicUrlOf (storagePath "u0" 0 "f"), 0⟩

/-- Decimal character list of `n`, expressed through `Nat.digits` for
reasoning about `Nat.repr`. -/
def decRep (n : Nat) : List Char := ((Nat.digits 10 n).map Nat.digitChar).reverse

/-- An inbound request (or the wall clock advancing between requests);
one execution of the server is a list of these. -/
inductive Event where
  | signupEv (email password : String) (displayName : Option String)
  | loginEv (email password : String)
  | uploadEv (token : String) (file : Option FileData) (f : UploadFaults)
  | listEv (token : String)
  | deleteEv (token : String) (fileId : Nat) (f : DeleteFaults)
  | tick (ms : Nat)
deriving DecidableEq

/-- State transition of one event: the state part of the handler
results (login and the files query do not mutate state; `tick`
advances the clock). -/
def step (s : ServerState) : Event → ServerState
  | .signupEv e p dn => (signup s e p dn).1
  | .loginEv _ _ => s
  | .uploadEv t f fl => (upload s t f fl).1
  | .listEv _ => s
  | .deleteEv t fid fl => (deleteFile s t fid fl).1
  | .tick ms => { s with now := s.now + ms }

/-- State reached by an execution from the empty initial state. -/
def run (tr : List Event) : ServerState := tr.foldl step initialState

/-- The `uploads` field of the `users` document at key `uid` (0 when
the document does not exist). -/
def uploadsIn (users : List (String × UserDoc)) (uid : String) : Int :=
  match users.find? (fun p => p.1 == uid) with
  | some p => p.2.uploads
  | none => 0

/-- A user's uploadCount in a server state. -/
def uploadsOf (s : ServerState) (uid : String) : Int := uploadsIn s.users uid

/-- Number of FileRecords owned by `uid`. -/
def ownedCount (s : ServerState) (uid : String) : Nat :=
  (s.files.filter (fun r => r.userId == uid)).length

/-- Whether a `users` document exists at key `uid`. -/
def docExists (users : List (String × UserDoc)) (uid : String) : Bool :=
  (users.find? (fun p => p.1 == uid)).isSome

/-- Whether an Auth user with this uid exists. -/
def authExists (l : List AuthUser) (uid : String) : Bool :=
  (l.find? (fun au => au.uid == uid)).isSome

/-- Whether an Auth user with this email exists. -/
def emailExists (l : List AuthUser) (email : String) : Bool :=
  (l.find? (fun au => au.email == email)).isSome

/-- An event whose faults leave the increment-counter stage intact
(the hypothesis under which the counter invariant survives). -/
def noCounterFault : Event → Bool
  | .uploadEv _ _ f => !f.incrementFails
  | _ => true

/-- Execution refuting claim C7: user `u0` signs up (counter 0),
uploads a file whose increment-counter stage fails (record exists,
counter still 0), then deletes that file successfully (counter
decremented): the uploadCount reaches -1. -/
def badTrace : List Event :=
  [.signupEv "a@b.c" "pw" none,
   .uploadEv "u0" (some demoFile) ⟨false, false, false, true⟩,
   .deleteEv "u0" 0 noDeleteFaults]

/-- Reachability invariant of the server state: Auth uids and `users`
document keys are counter-assigned (hence fresh uids never collide),
an Auth user exists exactly when its `users` document does, every
FileRecord's owner is a registered uid, and every user's uploadCount
is at least the number of records they own. -/
structure StateInv (s : ServerState) : Prop where
  uidBound : ∀ au ∈ s.authUsers, ∃ k, k < s.nextUid ∧ au.uid = mkUid k
  docBound : ∀ p ∈ s.users, ∃ k, k < s.nextUid ∧ p.1 = mkUid k
  authDoc : ∀ uid, authExists s.authUsers uid = docExists s.users uid
  filesReg : ∀ r ∈ s.files, authExists s.authUsers r.userId = true
  counter : ∀ uid, (ownedCount s uid : Int) ≤ uploadsIn s.users uid

theorem jsSplitChar_fst (c : Char) (l : List Char) :
    (jsSplitChar c l).1 = l.takeWhile (fun a => a ≠ c) := by
  induction l with
  | nil => rfl
  | cons x xs ih =>
    simp only [jsSplitChar, List.takeWhile]
    by_cases h : x = c
    · simp [h]
    · simp [h, ih]

theorem jsSplitFirst_eq_localPart (email : String) :
    jsSplitFirst '@' email = localPart email := by
  simp [jsSplitFirst, localPart, jsSplitChar_fst]

/-- Claim C9: the outcome of POST /api/auth/login does not depend on
the submitted password.  For a registered (hence non-empty) email and
any two non-empty passwords, both runs return the same result and that
result is a 200 success carrying a custom token: the password is never
verified against stored credentials. -/
theorem login_ignores_password (s : ServerState) (email p₁ p₂ : String)
    (hne : email ≠ "") (hreg : (findAuthByEmail s email).isSome)
    (h₁ : p₁ ≠ "") (h₂ : p₂ ≠ "") :
    login s email p₁ = login s email p₂ ∧
    ∃ tok uid dn up, login s email p₁ = .ok tok uid dn up := by
  obtain ⟨au, hau⟩ := Option.isSome_iff_exists.mp hreg
  refine ⟨?_, ?_⟩ <;>
    simp only [login, hne, h₁, h₂, or_self, if_false, hau, false_or, if_neg]
  exact ⟨_, _, _, _, rfl⟩

/-- Witness for `login_ignores_password` at a concrete state. -/
theorem login_ignores_password_witness :
    login (signup initialState "a@b.c" "pw" none).1 "a@b.c" "x" =
      login (signup initialState "a@b.c" "pw" none).1 "a@b.c" "y" ∧
    ∃ tok uid dn up,
      login (signup initialState "a@b.c" "pw" none).1 "a@b.c" "x" = .ok tok uid dn up :=
  login_ignores_password (signup initialState "a@b.c" "pw" none).1 "a@b.c" "x" "y"
    (by decide) (by decide) (by decide) (by decide)

/-- Claim C10: a signup that supplies email and password but omits
displayName stores, both in the Auth identity record and in the
`users` document, a displayName equal to the portion of the email
before the first at-sign (`email.split('@')[0]`). -/
theorem signup_default_displayName (s : ServerState) (email password : String)
    (he : email ≠ "") (hp : password ≠ "")
    (hfresh : findAuthByEmail s email = none) :
    ((signup s email password none).1.authUsers.getLast?).map AuthUser.displayName =
      some (localPart email) ∧
    ((signup s email password none).1.users.getLast?).map (fun p => p.2.displayName) =
      some (localPart email) ∧
    (signup s email password none).2 = .created (mkUid s.nextUid) email (localPart email) := by
  refine ⟨?_, ?_, ?_⟩ <;>
    simp only [signup, he, hp, or_self, if_false, hfresh, Option.isSome_none, Bool.false_eq_true,
      if_neg, jsOrElse, jsSplitFirst_eq_localPart, setUserDoc]
  · rw [List.getLast?_concat]; rfl
  · rw [List.getLast?_concat]; rfl

/-- Witness for `signup_default_displayName` at a concrete input. -/
theorem signup_default_displayName_witness :
    ((signup initialState "ada@example.org" "pw" none).1.authUsers.getLast?).map
        AuthUser.displayName = some (localPart "ada@example.org") ∧
    ((signup initialState "ada@example.org" "pw" none).1.users.getLast?).map
        (fun p => p.2.displayName) = some (localPart "ada@example.org") ∧
    (signup initialState "ada@example.org" "pw" none).2 =
      .created (mkUid 0) "ada@example.org" (localPart "ada@example.org") :=
  signup_default_displayName initialState "ada@example.org" "pw"
    (by decide) (by decide) (by decide)

/-- Claim C5: when the write-object stage (the bucket stream) fails,
the handler answers 500 from the stream error listener and the finish
callback never runs: the whole state — in particular the `files`
records and every user's `uploads` counter — is untouched. -/
theorem upload_writeFail_no_partial_state (s : ServerState) (token : String)
    (fd : FileData) (f : UploadFaults)
    (hv : validToken s token = true) (hf : f.writeFails = true) :
    upload s token (some fd) f = (s, .writeError) ∧
    uploadHttpStatus .writeError = some 500 :=
  ⟨by simp [upload, hv, hf], rfl⟩

/-- Witness for `upload_writeFail_no_partial_state`. -/
theorem upload_writeFail_no_partial_state_witness :
    upload demoState1 "u0" (some demoFile) ⟨true, false, false, false⟩ =
      (demoState1, .writeError) ∧
    uploadHttpStatus .writeError = some 500 :=
  upload_writeFail_no_partial_state demoState1 "u0" demoFile ⟨true, false, false, false⟩
    (by decide) rfl

/-- Claim C6: a delete request for an existing record owned by a
different principal answers 403 and mutates nothing: the returned
state is exactly the input state, so the object, the record and both
users' counters are unchanged. -/
theorem delete_forbidden_no_mutation (s : ServerState) (token : String)
    (fileId : Nat) (f : DeleteFaults) (r : FileRecord)
    (hv : validToken s token = true)
    (hfind : s.files.find? (fun q => q.id == fileId) = some r)
    (hown : r.userId ≠ token) :
    deleteFile s token fileId f = (s, .forbidden) ∧
    deleteHttpStatus .forbidden = 403 :=
  ⟨by simp [deleteFile, hv, hfind, hown], rfl⟩

/-- Witness for `delete_forbidden_no_mutation`: `u1` tries to delete
the file owned by `u0`. -/
theorem delete_forbidden_no_mutation_witness :
    deleteFile demoState3 "u1" 0 noDeleteFaults = (demoState3, .forbidden) ∧
    deleteHttpStatus .forbidden = 403 :=
  delete_forbidden_no_mutation demoState3 "u1" 0 noDeleteFaults demoRec
    (by decide) (by decide) (by decide)

/-- Claim C4: when the delete-object stage fails, the handler's catch
answers 500 before the record delete is attempted: the returned state
is exactly the input state, so the FileRecord is left in place and the
metadata of the possibly-still-existing object survives.  The 500
response is the one raised by the object-delete stage (the generic
body `Failed to delete file`). -/
theorem delete_objectFail_aborts (s : ServerState) (token : String)
    (fileId : Nat) (f : DeleteFaults) (r : FileRecord)
    (hv : validToken s token = true)
    (hfind : s.files.find? (fun q => q.id == fileId) = some r)
    (hown : r.userId = token)
    (hof : f.objectDeleteFails = true) :
    deleteFile s token fileId f = (s, .objectDeleteError) ∧
    deleteHttpStatus .objectDeleteError = 500 :=
  ⟨by simp [deleteFile, hv, hfind, hown, hof], rfl⟩

/-- Witness for `delete_objectFail_aborts`. -/
theorem delete_objectFail_aborts_witness :
    deleteFile demoState2 "u0" 0 ⟨true, false, false⟩ = (demoState2, .objectDeleteError) ∧
    deleteHttpStatus .objectDeleteError = 500 :=
  delete_objectFail_aborts demoState2 "u0" 0 ⟨true, false, false⟩ demoRec
    (by decide) (by decide) (by decide) rfl

theorem insertDesc_perm (r : FileRecord) (l : List FileRecord) :
    (insertDesc r l).Perm (r :: l) := by
  induction l with
  | nil => simp [insertDesc]
  | cons x xs ih =>
    simp only [insertDesc]
    split
    · exact List.Perm.refl _
    · exact (ih.cons x).trans (List.Perm.swap r x xs)

theorem sortDesc_perm (l : List FileRecord) : (sortDesc l).Perm l := by
  induction l with
  | nil => exact List.Perm.refl _
  | cons x xs ih => exact (insertDesc_perm x (sortDesc xs)).trans (ih.cons x)

theorem mem_sortDesc (r : FileRecord) (l : List FileRecord) :
    r ∈ sortDesc l ↔ r ∈ l :=
  (sortDesc_perm l).mem_iff

theorem pairwise_insertDesc (r : FileRecord) (l : List FileRecord)
    (h : l.Pairwise (fun a b => b.uploadedAt ≤ a.uploadedAt)) :
    (insertDesc r l).Pairwise (fun a b => b.uploadedAt ≤ a.uploadedAt) := by
  induction l with
  | nil => simp [insertDesc]
  | cons x xs ih =>
    rcases List.pairwise_cons.mp h with ⟨hx, hxs⟩
    simp only [insertDesc]
    split
    · rename_i hle
      refine List.pairwise_cons.mpr ⟨?_, h⟩
      intro b hb
      rcases List.mem_cons.mp hb with rfl | hb
      · exact hle
      · exact le_trans (hx b hb) hle
    · rename_i hgt
      refine List.pairwise_cons.mpr ⟨?_, ih hxs⟩
      intro b hb
      have hb' : b = r ∨ b ∈ xs := by
        have := (insertDesc_perm r xs).mem_iff.mp hb
        simpa using this
      rcases hb' with rfl | hb'
      · exact Nat.le_of_not_le hgt
      · exact hx b hb'

theorem sortDesc_pairwise (l : List FileRecord) :
    (sortDesc l).Pairwise (fun a b => b.uploadedAt ≤ a.uploadedAt) := by
  induction l with
  | nil => simp [sortDesc]
  | cons x xs ih => exact pairwise_insertDesc x (sortDesc xs) ih

theorem mem_putObject (objects : List String) (path : String) :
    path ∈ putObject objects path := by
  simp only [putObject]
  split
  · assumption
  · simp

theorem getFiles_ok (s : ServerState) (token : String) (hv : validToken s token = true) :
    getFiles s token = .ok (sortDesc (s.files.filter (fun r => r.userId == token))).length
      (sortDesc (s.files.filter (fun r => r.userId == token))) := by
  simp [getFiles, hv]

/-- Counterexample to claim C1: with the record-create stage failing
after a successful object write, the handler leaves the orphaned
object in the bucket, attempts no compensating delete, creates no
record and sends no error at all — the rejection inside the finish
callback is unhandled, so no `RecordCreateFailed` error and no
`orphanedObjectPath` ever reach the caller. -/
theorem upload_recordFail_counterexample :
    (upload demoState1 "u0" (some demoFile) ⟨false, false, true, false⟩).2 =
      .createRecordUnhandled ∧
    storagePath "u0" 0 "f" ∈
      (upload demoState1 "u0" (some demoFile) ⟨false, false, true, false⟩).1.objects ∧
    (upload demoState1 "u0" (some demoFile) ⟨false, false, true, false⟩).1.files = [] ∧
    uploadHttpStatus
      (upload demoState1 "u0" (some demoFile) ⟨false, false, true, false⟩).2 = none := by
  decide

/-- Amended claim C1: if the create-record stage fails after the
object write succeeded, the handler performs no compensating delete
and reports nothing: the only state change is the stored object, which
remains in the bucket unreferenced, and no response (hence no
`orphanedObjectPath`) is sent, because the rejection in the finish
callback is unhandled. -/
theorem upload_recordFail_silent_orphan (s : ServerState) (token : String)
    (fd : FileData) (f : UploadFaults)
    (hv : validToken s token = true)
    (hw : f.writeFails = false) (hm : f.makePublicFails = false)
    (hc : f.createRecordFails = true) :
    upload s token (some fd) f =
      ({ s with objects := putObject s.objects (storagePath token s.now fd.originalname) },
       .createRecordUnhandled) ∧
    storagePath token s.now fd.originalname ∈ (upload s token (some fd) f).1.objects ∧
    uploadHttpStatus (upload s token (some fd) f).2 = none := by
  have he : upload s token (some fd) f =
      ({ s with objects := putObject s.objects (storagePath token s.now fd.originalname) },
       .createRecordUnhandled) := by
    simp [upload, hv, hw, hm, hc]
  refine ⟨he, ?_, ?_⟩ <;> rw [he]
  · exact mem_putObject _ _
  · rfl

/-- Witness for `upload_recordFail_silent_orphan`. -/
theorem upload_recordFail_silent_orphan_witness :
    upload demoState1 "u0" (some demoFile) ⟨false, false, true, false⟩ =
      ({ demoState1 with
          objects := putObject demoState1.objects (storagePath "u0" demoState1.now "f") },
       .createRecordUnhandled) ∧
    storagePath "u0" demoState1.now "f" ∈
      (upload demoState1 "u0" (some demoFile) ⟨false, false, true, false⟩).1.objects ∧
    uploadHttpStatus
      (upload demoState1 "u0" (some demoFile) ⟨false, false, true, false⟩).2 = none :=
  upload_recordFail_silent_orphan demoState1 "u0" demoFile ⟨false, false, true, false⟩
    (by decide) rfl rfl rfl

/-- Counterexample to claim C2: with the increment-counter stage
failing after object write and record create succeeded, the upload
does not report success — no response is sent at all (the rejection in
the finish callback is unhandled), even though the record was
created. -/
theorem upload_counterFail_counterexample :
    (upload demoState1 "u0" (some demoFile) ⟨false, false, false, true⟩).2 =
      .incrementUnhandled ∧
    uploadHttpStatus
      (upload demoState1 "u0" (some demoFile) ⟨false, false, false, true⟩).2 = none ∧
    (upload demoState1 "u0" (some demoFile) ⟨false, false, false, true⟩).1.files.length = 1 := by
  decide

/-- Amended claim C2: if the increment-counter stage fails after
object write and record create succeeded, neither the StoredObject nor
the FileRecord is compensate-deleted and the created record remains
queryable through GET /api/files, but the handler does not report
success: it sends no response at all (unhandled rejection), and every
user's `uploads` counter is left untouched. -/
theorem upload_counterFail_record_kept (s : ServerState) (token : String)
    (fd : FileData) (f : UploadFaults)
    (hv : validToken s token = true)
    (hw : f.writeFails = false) (hm : f.makePublicFails = false)
    (hc : f.createRecordFails = false) (hi : f.incrementFails = true) :
    upload s token (some fd) f =
      ({ s with
          objects := putObject s.objects (storagePath token s.now fd.originalname),
          files := s.files ++
            [⟨s.nextFileId, token, fd.originalname, storagePath token s.now fd.originalname,
              fd.size, fd.mimetype, publicUrlOf (storagePath token s.now fd.originalname),
              s.now⟩],
          nextFileId := s.nextFileId + 1 },
       .incrementUnhandled) ∧
    (∃ l, getFiles (upload s token (some fd) f).1 token = .ok l.length l ∧
      (⟨s.nextFileId, token, fd.originalname, storagePath token s.now fd.originalname,
        fd.size, fd.mimetype, publicUrlOf (storagePath token s.now fd.originalname),
        s.now⟩ : FileRecord) ∈ l) ∧
    uploadHttpStatus (upload s token (some fd) f).2 = none := by
  have he : upload s token (some fd) f =
      ({ s with
          objects := putObject s.objects (storagePath token s.now fd.originalname),
          files := s.files ++
            [⟨s.nextFileId, token, fd.originalname, storagePath token s.now fd.originalname,
              fd.size, fd.mimetype, publicUrlOf (storagePath token s.now fd.originalname),
              s.now⟩],
          nextFileId := s.nextFileId + 1 },
       .incrementUnhandled) := by
    simp [upload, hv, hw, hm, hc, hi]
  refine ⟨he, ?_, ?_⟩
  · rw [he]
    refine ⟨_, getFiles_ok _ token hv, ?_⟩
    rw [mem_sortDesc]
    simp
  · rw [he]
    rfl

/-- Witness for `upload_counterFail_record_kept`. -/
theorem upload_counterFail_record_kept_witness :
    upload demoState1 "u0" (some demoFile) ⟨false, false, false, true⟩ =
      ({ demoState1 with
          objects := putObject demoState1.objects
            (storagePath "u0" demoState1.now demoFile.originalname),
          files := demoState1.files ++
            [⟨demoState1.nextFileId, "u0", demoFile.originalname,
              storagePath "u0" demoState1.now demoFile.originalname, demoFile.size,
              demoFile.mimetype,
              publicUrlOf (storagePath "u0" demoState1.now demoFile.originalname),
              demoState1.now⟩],
          nextFileId := demoState1.nextFileId + 1 },
       .incrementUnhandled) ∧
    (∃ l, getFiles (upload demoState1 "u0" (some demoFile) ⟨false, false, false, true⟩).1
        "u0" = .ok l.length l ∧
      (⟨demoState1.nextFileId, "u0", demoFile.originalname,
        storagePath "u0" demoState1.now demoFile.originalname, demoFile.size,
        demoFile.mimetype,
        publicUrlOf (storagePath "u0" demoState1.now demoFile.originalname),
        demoState1.now⟩ : FileRecord) ∈ l) ∧
    uploadHttpStatus
      (upload demoState1 "u0" (some demoFile) ⟨false, false, false, true⟩).2 = none :=
  upload_counterFail_record_kept demoState1 "u0" demoFile ⟨false, false, false, true⟩
    (by decide) rfl rfl rfl rfl

/-- Claim C8: the GET /api/files success response is exactly the
caller's records with their count, newest first.  The response list
contains a record exactly when it is a stored record owned by the
caller, it is sorted newest-first on `uploadedAt`, the reported count
is its length, and a record strictly newer than every other record of
the caller (one uploaded immediately before the query) appears exactly
once and at a position before every strictly older record.  The Nodup
hypothesis is the record store invariant that Firestore document ids
are unique. -/
theorem getFiles_exact (s : ServerState) (token : String)
    (hv : validToken s token = true)
    (hids : (s.files.map FileRecord.id).Nodup) :
    ∃ l, getFiles s token = .ok l.length l ∧
      (∀ r, r ∈ l ↔ (r ∈ s.files ∧ r.userId = token)) ∧
      l.Pairwise (fun a b => b.uploadedAt ≤ a.uploadedAt) ∧
      (∀ f, f ∈ s.files → f.userId = token →
        (∀ r ∈ s.files, r.userId = token → r ≠ f → r.uploadedAt < f.uploadedAt) →
        l.count f = 1 ∧
        ∀ i j : Fin l.length, l.get i = f → (l.get j).uploadedAt < f.uploadedAt →
          (i : Nat) < j) := by
  refine ⟨sortDesc (s.files.filter (fun r => r.userId == token)),
    getFiles_ok s token hv, ?_, sortDesc_pairwise _, ?_⟩
  · intro r
    rw [mem_sortDesc, List.mem_filter]
    simp
  · intro f hf hft hnewest
    constructor
    · rw [(sortDesc_perm _).count_eq, List.count_filter]
      have hnd : s.files.Nodup := List.Nodup.of_map FileRecord.id hids
      rw [List.count_eq_one_of_mem hnd hf]
      simp [hft]
    · intro i j hi hj
      rcases Nat.lt_trichotomy (i : Nat) (j : Nat) with h | h | h
      · exact h
      · exfalso
        have hij : i = j := Fin.ext h
        rw [← hij, hi] at hj
        exact absurd hj (lt_irrefl _)
      · exfalso
        have hp := List.pairwise_iff_get.mp (sortDesc_pairwise
          (s.files.filter (fun r => r.userId == token))) j i h
        rw [hi] at hp
        omega

/-- Witness for `getFiles_exact` at the one-user one-file state. -/
theorem getFiles_exact_witness :
    ∃ l, getFiles demoState2 "u0" = .ok l.length l ∧
      (∀ r, r ∈ l ↔ (r ∈ demoState2.files ∧ r.userId = "u0")) ∧
      l.Pairwise (fun a b => b.uploadedAt ≤ a.uploadedAt) ∧
      (∀ f, f ∈ demoState2.files → f.userId = "u0" →
        (∀ r ∈ demoState2.files, r.userId = "u0" → r ≠ f → r.uploadedAt < f.uploadedAt) →
        l.count f = 1 ∧
        ∀ i j : Fin l.length, l.get i = f → (l.get j).uploadedAt < f.uploadedAt →
          (i : Nat) < j) :=
  getFiles_exact demoState2 "u0" (by decide) (by decide)

theorem digitChar_injOn : ∀ a, a < 10 → ∀ b, b < 10 →
    Nat.digitChar a = Nat.digitChar b → a = b := by decide

theorem map_digitChar_inj : ∀ l₁ l₂ : List Nat, (∀ d ∈ l₁, d < 10) → (∀ d ∈ l₂, d < 10) →
    l₁.map Nat.digitChar = l₂.map Nat.digitChar → l₁ = l₂ := by
  intro l₁
  induction l₁ with
  | nil => intro l₂ _ _ h; cases l₂ <;> simp_all
  | cons x xs ih =>
    intro l₂ h₁ h₂ h
    cases l₂ with
    | nil => simp_all
    | cons y ys =>
      simp only [List.map_cons, List.cons.injEq] at h
      have hx : x = y := digitChar_injOn x (h₁ x (by simp)) y (h₂ y (by simp)) h.1
      have hxs : xs = ys := ih ys (fun d hd => h₁ d (by simp [hd]))
        (fun d hd => h₂ d (by simp [hd])) h.2
      rw [hx, hxs]

theorem toDigitsCore_eq_decRep (fuel : Nat) : ∀ (n : Nat) (acc : List Char),
    n < fuel → n ≠ 0 → Nat.toDigitsCore 10 fuel n acc = decRep n ++ acc := by
  induction fuel with
  | zero => intro n acc h; omega
  | succ fuel ih =>
    intro n acc hlt hne
    have hdig := Nat.digits_def' (b := 10) (by norm_num) (Nat.pos_of_ne_zero hne)
    by_cases hd : n / 10 = 0
    · have hn10 : n < 10 := (Nat.div_eq_zero_iff (by norm_num)).mp hd
      have hmod : n % 10 = n := Nat.mod_eq_of_lt hn10
      simp only [Nat.toDigitsCore, hd, if_pos]
      rw [decRep, hdig, hd, Nat.digits_zero, hmod]
      rfl
    · have h1 : n / 10 < fuel :=
        lt_of_lt_of_le (Nat.div_lt_self (Nat.pos_of_ne_zero hne) (by norm_num))
          (Nat.lt_succ_iff.mp hlt)
      have hsplit : decRep n = decRep (n / 10) ++ [Nat.digitChar (n % 10)] := by
        simp only [decRep, hdig, List.map_cons, List.reverse_cons]
      simp only [Nat.toDigitsCore, hd, if_neg, if_false]
      rw [ih (n / 10) _ h1 hd, hsplit, List.append_assoc, List.singleton_append]

theorem repr_eq_decRep (n : Nat) (hn : n ≠ 0) : Nat.repr n = (decRep n).asString := by
  show (Nat.toDigitsCore 10 (n + 1) n []).asString = (decRep n).asString
  rw [toDigitsCore_eq_decRep (n + 1) n [] (Nat.lt_succ_self n) hn, List.append_nil]

theorem decRep_inj (m n : Nat) (h : decRep m = decRep n) : m = n := by
  have hmap : (Nat.digits 10 m).map Nat.digitChar = (Nat.digits 10 n).map Nat.digitChar := by
    have := congrArg List.reverse h
    simpa [decRep] using this
  have hdig : Nat.digits 10 m = Nat.digits 10 n :=
    map_digitChar_inj _ _ (fun d hd => Nat.digits_lt_base (by norm_num) hd)
      (fun d hd => Nat.digits_lt_base (by norm_num) hd) hmap
  calc m = Nat.ofDigits 10 (Nat.digits 10 m) := (Nat.ofDigits_digits 10 m).symm
    _ = Nat.ofDigits 10 (Nat.digits 10 n) := by rw [hdig]
    _ = n := Nat.ofDigits_digits 10 n

theorem decRep_ne_zero_char (n : Nat) (hn : n ≠ 0) : decRep n ≠ ['0'] := by
  intro h
  apply hn
  have hmap : (Nat.digits 10 n).map Nat.digitChar = ['0'] := by
    have := congrArg List.reverse h
    simpa [decRep] using this
  have hdig : Nat.digits 10 n = [0] :=
    map_digitChar_inj _ _ (fun d hd => Nat.digits_lt_base (by norm_num) hd)
      (by intro d hd; simp at hd; omega) (by simpa using hmap)
  calc n = Nat.ofDigits 10 (Nat.digits 10 n) := (Nat.ofDigits_digits 10 n).symm
    _ = Nat.ofDigits 10 [0] := by rw [hdig]
    _ = 0 := by simp [Nat.ofDigits]

theorem reprNat_inj (m n : Nat) (h : Nat.repr m = Nat.repr n) : m = n := by
  by_cases hm : m = 0 <;> by_cases hn : n = 0
  · rw [hm, hn]
  · exfalso
    rw [hm, repr_eq_decRep n hn] at h
    exact decRep_ne_zero_char n hn (congrArg String.data h).symm
  · exfalso
    rw [hn, repr_eq_decRep m hm] at h
    exact decRep_ne_zero_char m hm (congrArg String.data h)
  · rw [repr_eq_decRep m hm, repr_eq_decRep n hn] at h
    exact decRep_inj m n (congrArg String.data h)

/-- Counterexample to claim C3: two successful uploads by the same
principal of the same file name within the same `Date.now()`
millisecond (the clock does not advance between the two requests)
return the same storagePath: both FileRecords reference one path and
the bucket holds a single object — the second upload overwrote the
first. -/
theorem upload_same_ms_collision_counterexample :
    (upload demoState1 "u0" (some demoFile) noUploadFaults).2 =
      .ok 0 "f" 3 (publicUrlOf (storagePath "u0" 0 "f")) "t" ∧
    (upload demoState2 "u0" (some demoFile) noUploadFaults).2 =
      .ok 1 "f" 3 (publicUrlOf (storagePath "u0" 0 "f")) "t" ∧
    (upload demoState2 "u0" (some demoFile) noUploadFaults).1.files.map
      FileRecord.storagePath = [storagePath "u0" 0 "f", storagePath "u0" 0 "f"] ∧
    (upload demoState2 "u0" (some demoFile) noUploadFaults).1.objects =
      [storagePath "u0" 0 "f"] := by
  decide

/-- Amended claim C3: the storagePath is `uploads/UID/TS_NAME` with TS
the millisecond value of `Date.now()`, so two uploads by the same
principal with the same name collide exactly when they fall in the
same millisecond; whenever the `Date.now()` values differ, the two
storagePaths are distinct (decimal representation of the timestamp is
injective). -/
theorem storagePath_distinct_times (uid name : String) (ts₁ ts₂ : Nat)
    (h : ts₁ ≠ ts₂) :
    storagePath uid ts₁ name ≠ storagePath uid ts₂ name := by
  intro hcon
  apply h
  have hd := congrArg String.data hcon
  simp only [storagePath, String.data_append] at hd
  have h1 := List.append_cancel_right hd
  have h2 := List.append_cancel_right h1
  have h3 := List.append_cancel_left h2
  exact reprNat_inj _ _ (String.ext h3)

/-- Witness for `storagePath_distinct_times`. -/
theorem storagePath_distinct_times_witness :
    storagePath "u0" 0 "f" ≠ storagePath "u0" 1 "f" :=
  storagePath_distinct_times "u0" "f" 0 1 (by decide)

/-- Counterexample to claim C7: after `badTrace` the uploadCount of
`u0` is -1, so a sequence of operations (an upload whose counter stage
fails, followed by a successful delete) does drive the counter below
zero. -/
theorem uploads_negative_counterexample :
    uploadsOf (run badTrace) "u0" = -1 := by decide

theorem mkUid_inj (m n : Nat) (h : mkUid m = mkUid n) : m = n := by
  have hd := congrArg String.data h
  simp only [mkUid, String.data_append] at hd
  exact reprNat_inj m n (String.ext (List.append_cancel_left hd))

theorem find?_updateUploads_self (users : List (String × UserDoc)) (t : String) (d : Int) :
    (updateUploads users t d).find? (fun p => p.1 == t) =
      (users.find? (fun p => p.1 == t)).map
        (fun p => (p.1, { p.2 with uploads := p.2.uploads + d })) := by
  induction users with
  | nil => rfl
  | cons q qs ih =>
    by_cases hq : (q.1 == t) = true
    · simp [updateUploads, List.find?, hq]
    · have hq' : (q.1 == t) = false := Bool.eq_false_iff.mpr hq
      have hne : ¬ q.1 = t := by simpa using hq
      have hcons : updateUploads (q :: qs) t d = q :: updateUploads qs t d := by
        simp [updateUploads, hne]
      rw [hcons]
      simp only [List.find?, hq']
      exact ih

theorem find?_updateUploads_ne (users : List (String × UserDoc)) (t uid : String) (d : Int)
    (h : uid ≠ t) :
    (updateUploads users t d).find? (fun p => p.1 == uid) =
      users.find? (fun p => p.1 == uid) := by
  induction users with
  | nil => rfl
  | cons q qs ih =>
    by_cases hq : (q.1 == uid) = true
    · have hqt : (q.1 == t) = false := by
        simp only [beq_iff_eq] at hq
        rw [hq]
        exact beq_false_of_ne h
      simp [updateUploads, List.find?, hq, hqt]
    · by_cases hqt : (q.1 == t) = true
      · simp only [updateUploads, List.map_cons, if_pos hqt, List.find?,
          Bool.eq_false_iff.mpr hq] at ih ⊢
        exact ih
      · simp only [updateUploads, List.map_cons, if_neg hqt, List.find?,
          Bool.eq_false_iff.mpr hq] at ih ⊢
        exact ih

theorem uploadsIn_updateUploads_self (users : List (String × UserDoc)) (t : String) (d : Int)
    (h : docExists users t = true) :
    uploadsIn (updateUploads users t d) t = uploadsIn users t + d := by
  rw [docExists, Option.isSome_iff_exists] at h
  obtain ⟨p, hp⟩ := h
  rw [uploadsIn, uploadsIn, find?_updateUploads_self, hp]
  rfl

theorem uploadsIn_updateUploads_ne (users : List (String × UserDoc)) (t uid : String)
    (d : Int) (h : uid ≠ t) :
    uploadsIn (updateUploads users t d) uid = uploadsIn users uid := by
  rw [uploadsIn, uploadsIn, find?_updateUploads_ne users t uid d h]

theorem docExists_updateUploads (users : List (String × UserDoc)) (t uid : String) (d : Int) :
    docExists (updateUploads users t d) uid = docExists users uid := by
  by_cases h : uid = t
  · subst h
    rw [docExists, docExists, find?_updateUploads_self]
    cases hf : users.find? (fun p => p.1 == uid) <;> simp [hf]
  · rw [docExists, docExists, find?_updateUploads_ne users t uid d h]

theorem find?_filter_ne (users : List (String × UserDoc)) (t uid : String) (h : uid ≠ t) :
    (users.filter (fun p => p.1 != t)).find? (fun p => p.1 == uid) =
      users.find? (fun p => p.1 == uid) := by
  induction users with
  | nil => rfl
  | cons q qs ih =>
    by_cases hq : (q.1 == uid) = true
    · have hqt : (q.1 != t) = true := by
        simp only [beq_iff_eq] at hq
        simp [bne_iff_ne, hq, h]
      simp [List.filter_cons, hqt, List.find?, hq]
    · by_cases hqt : (q.1 != t) = true
      · simp only [List.filter_cons, if_pos hqt, List.find?,
          Bool.eq_false_iff.mpr hq] at ih ⊢
        exact ih
      · simp only [List.filter_cons, if_neg hqt, List.find?,
          Bool.eq_false_iff.mpr hq] at ih ⊢
        exact ih

theorem find?_setUserDoc_self (users : List (String × UserDoc)) (t : String) (doc : UserDoc) :
    (setUserDoc users t doc).find? (fun p => p.1 == t) = some (t, doc) := by
  rw [setUserDoc, List.find?_append]
  have h1 : (users.filter (fun p => p.1 != t)).find? (fun p => p.1 == t) = none := by
    rw [List.find?_eq_none]
    intro x hx
    have := (List.mem_filter.mp hx).2
    simp only [bne_iff_ne, ne_eq] at this
    simp [this]
  rw [h1]
  simp [List.find?]

theorem find?_setUserDoc_ne (users : List (String × UserDoc)) (t uid : String)
    (doc : UserDoc) (h : uid ≠ t) :
    (setUserDoc users t doc).find? (fun p => p.1 == uid) =
      users.find? (fun p => p.1 == uid) := by
  rw [setUserDoc, List.find?_append]
  have h2 : ([(t, doc)].find? (fun p => p.1 == uid)) = none := by
    have : (t == uid) = false := beq_false_of_ne (Ne.symm h)
    simp [List.find?, this]
  rw [h2, find?_filter_ne users t uid h]
  cases hf : users.find? (fun p => p.1 == uid) <;> rfl

theorem uploadsIn_setUserDoc_self (users : List (String × UserDoc)) (t : String)
    (doc : UserDoc) : uploadsIn (setUserDoc users t doc) t = doc.uploads := by
  rw [uploadsIn, find?_setUserDoc_self]

theorem uploadsIn_setUserDoc_ne (users : List (String × UserDoc)) (t uid : String)
    (doc : UserDoc) (h : uid ≠ t) :
    uploadsIn (setUserDoc users t doc) uid = uploadsIn users uid := by
  rw [uploadsIn, uploadsIn, find?_setUserDoc_ne users t uid doc h]

theorem docExists_setUserDoc_self (users : List (String × UserDoc)) (t : String)
    (doc : UserDoc) : docExists (setUserDoc users t doc) t = true := by
  rw [docExists, find?_setUserDoc_self]
  rfl

theorem docExists_setUserDoc_ne (users : List (String × UserDoc)) (t uid : String)
    (doc : UserDoc) (h : uid ≠ t) :
    docExists (setUserDoc users t doc) uid = docExists users uid := by
  rw [docExists, docExists, find?_setUserDoc_ne users t uid doc h]

theorem authExists_append_single (l : List AuthUser) (au : AuthUser) (uid : String) :
    authExists (l ++ [au]) uid = (authExists l uid || au.uid == uid) := by
  rw [authExists, List.find?_append]
  cases hf : l.find? (fun a => a.uid == uid) with
  | none =>
    simp only [Option.none_or, authExists, hf, Option.isSome_none, Bool.false_or]
    cases hau : au.uid == uid <;> simp [List.find?, hau]
  | some p => simp [authExists, hf]

theorem length_filter_filter_lt {α : Type} (P Q : α → Bool) (l : List α) (r : α)
    (hr : r ∈ l) (hP : P r = true) (hQ : Q r = false) :
    ((l.filter Q).filter P).length < (l.filter P).length := by
  have hsub : List.Sublist ((l.filter Q).filter P) (l.filter P) :=
    (List.filter_sublist l).filter P
  rcases Nat.lt_or_ge ((l.filter Q).filter P).length (l.filter P).length with h | h
  · exact h
  · exfalso
    have heq := hsub.eq_of_length (Nat.le_antisymm hsub.length_le h)
    have hrP : r ∈ l.filter P := List.mem_filter.mpr ⟨hr, hP⟩
    rw [← heq] at hrP
    have h2 := (List.mem_filter.mp (List.mem_filter.mp hrP).1).2
    rw [hQ] at h2
    exact Bool.false_ne_true h2

theorem authExists_iff (l : List AuthUser) (uid : String) :
    authExists l uid = true ↔ ∃ au ∈ l, au.uid = uid := by
  rw [authExists]
  constructor
  · intro h
    rcases List.find?_isSome.mp h with ⟨au, hmem, hp⟩
    exact ⟨au, hmem, by simpa using hp⟩
  · rintro ⟨au, hmem, heq⟩
    exact List.find?_isSome.mpr ⟨au, hmem, by simp [heq]⟩

theorem mem_updateUploads_key (users : List (String × UserDoc)) (t : String) (d : Int) :
    ∀ p ∈ updateUploads users t d, ∃ q ∈ users, p.1 = q.1 := by
  intro p hp
  rcases List.mem_map.mp hp with ⟨q, hq, hpq⟩
  refine ⟨q, hq, ?_⟩
  rw [← hpq]
  split <;> rfl

theorem inv_initialState : StateInv initialState := by
  refine ⟨?_, ?_, ?_, ?_, ?_⟩ <;>
    simp [initialState, authExists, docExists, ownedCount, uploadsIn, List.find?]

theorem inv_objects (s : ServerState) (objs : List String) (h : StateInv s) :
    StateInv { s with objects := objs } := by
  obtain ⟨a, b, c, d, e⟩ := h
  exact ⟨a, b, c, d, e⟩

theorem inv_now (s : ServerState) (n : Nat) (h : StateInv s) : StateInv { s with now := n } := by
  obtain ⟨a, b, c, d, e⟩ := h
  exact ⟨a, b, c, d, e⟩

theorem inv_signup (s : ServerState) (e p : String) (dn : Option String) (hInv : StateInv s) :
    StateInv (signup s e p dn).1 := by
  by_cases h1 : e = "" ∨ p = ""
  · have : (signup s e p dn).1 = s := by simp [signup, h1]
    rw [this]; exact hInv
  · by_cases h2 : (findAuthByEmail s e).isSome = true
    · have : (signup s e p dn).1 = s := by simp [signup, h1, h2]
      rw [this]; exact hInv
    · have hred : (signup s e p dn).1 =
        { s with
            authUsers := s.authUsers ++
              [⟨mkUid s.nextUid, e, p, jsOrElse dn (jsSplitFirst '@' e)⟩],
            users := setUserDoc s.users (mkUid s.nextUid)
              ⟨e, jsOrElse dn (jsSplitFirst '@' e), s.now, 0⟩,
            nextUid := s.nextUid + 1 } := by
        simp [signup, h1, h2]
      rw [hred]
      refine ⟨?_, ?_, ?_, ?_, ?_⟩
      · intro au hau
        rcases List.mem_append.mp hau with hmem | hmem
        · obtain ⟨k, hk, heq⟩ := hInv.uidBound au hmem
          exact ⟨k, Nat.lt_succ_of_lt hk, heq⟩
        · have : au = ⟨mkUid s.nextUid, e, p, jsOrElse dn (jsSplitFirst '@' e)⟩ := by
            simpa using hmem
          exact ⟨s.nextUid, Nat.lt_succ_self _, by rw [this]⟩
      · intro q hq
        rcases List.mem_append.mp hq with hmem | hmem
        · obtain ⟨k, hk, heq⟩ := hInv.docBound q (List.mem_of_mem_filter hmem)
          exact ⟨k, Nat.lt_succ_of_lt hk, heq⟩
        · have : q = (mkUid s.nextUid, ⟨e, jsOrElse dn (jsSplitFirst '@' e), s.now, 0⟩) := by
            simpa using hmem
          exact ⟨s.nextUid, Nat.lt_succ_self _, by rw [this]⟩
      · intro uid
        by_cases hu : uid = mkUid s.nextUid
        · subst hu
          rw [authExists_append_single, docExists_setUserDoc_self]
          simp
        · rw [authExists_append_single, docExists_setUserDoc_ne _ _ _ _ hu,
            ← hInv.authDoc uid]
          have hne : ((⟨mkUid s.nextUid, e, p,
              jsOrElse dn (jsSplitFirst '@' e)⟩ : AuthUser).uid == uid) = false :=
            beq_false_of_ne (fun hc => hu hc.symm)
          simp [hne]
      · intro r hr
        have := hInv.filesReg r hr
        rw [authExists_append_single]
        simp [this]
      · intro uid
        by_cases hu : uid = mkUid s.nextUid
        · subst hu
          rw [uploadsIn_setUserDoc_self]
          have hempty : s.files.filter (fun r => r.userId == mkUid s.nextUid) = [] := by
            rw [List.filter_eq_nil_iff]
            intro r hr hpred
            have huid : r.userId = mkUid s.nextUid := by simpa using hpred
            have hreg := hInv.filesReg r hr
            rw [huid] at hreg
            obtain ⟨au, hmem, hau⟩ := (authExists_iff _ _).mp hreg
            obtain ⟨k, hk, hk2⟩ := hInv.uidBound au hmem
            rw [hk2] at hau
            exact absurd (mkUid_inj _ _ hau) (Nat.ne_of_lt hk)
          show ((s.files.filter (fun r => r.userId == mkUid s.nextUid)).length : Int) ≤ 0
          rw [hempty]
          simp
        · rw [uploadsIn_setUserDoc_ne _ _ _ _ hu]
          exact hInv.counter uid

theorem inv_upload (s : ServerState) (t : String) (file : Option FileData)
    (fl : UploadFaults) (hInv : StateInv s) (hc : fl.incrementFails = false) :
    StateInv (upload s t file fl).1 := by
  by_cases hv : validToken s t = true
  · cases file with
    | none =>
      have hs : (upload s t none fl).1 = s := by simp [upload, hv]
      rw [hs]; exact hInv
    | some fd =>
      by_cases hw : fl.writeFails = true
      · have hs : (upload s t (some fd) fl).1 = s := by simp [upload, hv, hw]
        rw [hs]; exact hInv
      · by_cases hm : fl.makePublicFails = true
        · have hs : (upload s t (some fd) fl).1 =
              { s with objects := putObject s.objects (storagePath t s.now fd.originalname) } := by
            simp [upload, hv, hw, hm]
          rw [hs]; exact inv_objects _ _ hInv
        · by_cases hcr : fl.createRecordFails = true
          · have hs : (upload s t (some fd) fl).1 =
                { s with objects := putObject s.objects (storagePath t s.now fd.originalname) } := by
              simp [upload, hv, hw, hm, hcr]
            rw [hs]; exact inv_objects _ _ hInv
          · have hred : (upload s t (some fd) fl).1 =
                { s with
                    objects := putObject s.objects (storagePath t s.now fd.originalname),
                    files := s.files ++ [⟨s.nextFileId, t, fd.originalname,
                      storagePath t s.now fd.originalname, fd.size, fd.mimetype,
                      publicUrlOf (storagePath t s.now fd.originalname), s.now⟩],
                    nextFileId := s.nextFileId + 1,
                    users := updateUploads s.users t 1 } := by
              simp [upload, hv, hw, hm, hcr, hc]
            rw [hred]
            refine ⟨?_, ?_, ?_, ?_, ?_⟩
            · exact fun au hau => hInv.uidBound au hau
            · intro q hq
              obtain ⟨q', hq', heq⟩ := mem_updateUploads_key s.users t 1 q hq
              obtain ⟨k, hk, h2⟩ := hInv.docBound q' hq'
              exact ⟨k, hk, heq ▸ h2⟩
            · intro uid
              rw [docExists_updateUploads]
              exact hInv.authDoc uid
            · intro r hr
              rcases List.mem_append.mp hr with hmem | hmem
              · exact hInv.filesReg r hmem
              · have hr2 : r = ⟨s.nextFileId, t, fd.originalname,
                    storagePath t s.now fd.originalname, fd.size, fd.mimetype,
                    publicUrlOf (storagePath t s.now fd.originalname), s.now⟩ := by
                  simpa using hmem
                rw [hr2]
                exact hv
            · intro uid
              by_cases hu : uid = t
              · subst hu
                have hdoc : docExists s.users uid = true := by
                  rw [← hInv.authDoc uid]; exact hv
                rw [uploadsIn_updateUploads_self _ _ _ hdoc]
                show (((s.files ++ ([⟨s.nextFileId, uid, fd.originalname,
                    storagePath uid s.now fd.originalname, fd.size, fd.mimetype,
                    publicUrlOf (storagePath uid s.now fd.originalname), s.now⟩] :
                      List FileRecord)).filter
                      (fun r => r.userId == uid)).length : Int) ≤ uploadsIn s.users uid + 1
                rw [List.filter_append]
                have hone : ([⟨s.nextFileId, uid, fd.originalname,
                    storagePath uid s.now fd.originalname, fd.size, fd.mimetype,
                    publicUrlOf (storagePath uid s.now fd.originalname), s.now⟩] :
                      List FileRecord).filter (fun r => r.userId == uid) =
                    [⟨s.nextFileId, uid, fd.originalname,
                      storagePath uid s.now fd.originalname, fd.size, fd.mimetype,
                      publicUrlOf (storagePath uid s.now fd.originalname), s.now⟩] := by
                  simp
                rw [hone]
                simp only [List.length_append, List.length_singleton]
                have hcount := hInv.counter uid
                rw [ownedCount] at hcount
                push_cast
                omega
              · rw [uploadsIn_updateUploads_ne _ _ _ _ hu]
                show (((s.files ++ ([⟨s.nextFileId, t, fd.originalname,
                    storagePath t s.now fd.originalname, fd.size, fd.mimetype,
                    publicUrlOf (storagePath t s.now fd.originalname), s.now⟩] :
                      List FileRecord)).filter
                      (fun r => r.userId == uid)).length : Int) ≤ uploadsIn s.users uid
                rw [List.filter_append]
                have hnone : ([⟨s.nextFileId, t, fd.originalname,
                    storagePath t s.now fd.originalname, fd.size, fd.mimetype,
                    publicUrlOf (storagePath t s.now fd.originalname), s.now⟩] :
                      List FileRecord).filter (fun r => r.userId == uid) = [] := by
                  simp [beq_false_of_ne (fun hc2 => hu hc2.symm)]
                rw [hnone, List.append_nil]
                exact hInv.counter uid
  · have hs : (upload s t file fl).1 = s := by simp [upload, hv]
    rw [hs]; exact hInv

theorem inv_delete (s : ServerState) (t : String) (fid : Nat) (fl : DeleteFaults)
    (hInv : StateInv s) : StateInv (deleteFile s t fid fl).1 := by
  by_cases hv : validToken s t = true
  · cases hfind : s.files.find? (fun r => r.id == fid) with
    | none =>
      have hs : (deleteFile s t fid fl).1 = s := by simp [deleteFile, hv, hfind]
      rw [hs]; exact hInv
    | some r =>
      by_cases hown : r.userId = t
      · have hid : r.id = fid := by simpa using List.find?_some hfind
        have hmem : r ∈ s.files := List.mem_of_find?_eq_some hfind
        by_cases ho : fl.objectDeleteFails = true
        · have hs : (deleteFile s t fid fl).1 = s := by
            simp [deleteFile, hv, hfind, hown, ho]
          rw [hs]; exact hInv
        · by_cases hrd : fl.recordDeleteFails = true
          · have hs : (deleteFile s t fid fl).1 =
                { s with objects := s.objects.filter (fun q => q ≠ r.storagePath) } := by
              simp [deleteFile, hv, hfind, hown, ho, hrd]
            rw [hs]; exact inv_objects _ _ hInv
          · by_cases hd : fl.decrementFails = true
            · have hs : (deleteFile s t fid fl).1 =
                  { s with objects := s.objects.filter (fun q => q ≠ r.storagePath),
                           files := s.files.filter (fun q => q.id ≠ fid) } := by
                simp [deleteFile, hv, hfind, hown, ho, hrd, hd]
              rw [hs]
              refine ⟨?_, ?_, ?_, ?_, ?_⟩
              · exact fun au hau => hInv.uidBound au hau
              · exact fun q hq => hInv.docBound q hq
              · exact fun uid => hInv.authDoc uid
              · exact fun q hq => hInv.filesReg q (List.mem_of_mem_filter hq)
              · intro uid
                have hsub : List.Sublist
                    ((s.files.filter (fun q => q.id ≠ fid)).filter (fun q => q.userId == uid))
                    (s.files.filter (fun q => q.userId == uid)) :=
                  (List.filter_sublist s.files).filter _
                have hlen := hsub.length_le
                have hcount := hInv.counter uid
                rw [ownedCount] at hcount
                show ((((s.files.filter (fun q => q.id ≠ fid)).filter
                    (fun q => q.userId == uid)).length : Int)) ≤ uploadsIn s.users uid
                omega
            · have hs : (deleteFile s t fid fl).1 =
                  { s with objects := s.objects.filter (fun q => q ≠ r.storagePath),
                           files := s.files.filter (fun q => q.id ≠ fid),
                           users := updateUploads s.users t (-1) } := by
                simp [deleteFile, hv, hfind, hown, ho, hrd, hd]
              rw [hs]
              refine ⟨?_, ?_, ?_, ?_, ?_⟩
              · exact fun au hau => hInv.uidBound au hau
              · intro q hq
                obtain ⟨q', hq', heq⟩ := mem_updateUploads_key s.users t (-1) q hq
                obtain ⟨k, hk, h2⟩ := hInv.docBound q' hq'
                exact ⟨k, hk, heq ▸ h2⟩
              · intro uid
                rw [docExists_updateUploads]
                exact hInv.authDoc uid
              · exact fun q hq => hInv.filesReg q (List.mem_of_mem_filter hq)
              · intro uid
                by_cases hu : uid = t
                · subst hu
                  have hdoc : docExists s.users uid = true := by
                    rw [← hInv.authDoc uid]; exact hv
                  rw [uploadsIn_updateUploads_self _ _ _ hdoc]
                  have hlt := length_filter_filter_lt (fun q => q.userId == uid)
                    (fun q => q.id ≠ fid) s.files r hmem (by simp [hown]) (by simp [hid])
                  have hcount := hInv.counter uid
                  rw [ownedCount] at hcount
                  show ((((s.files.filter (fun q => q.id ≠ fid)).filter
                      (fun q => q.userId == uid)).length : Int)) ≤ uploadsIn s.users uid + (-1)
                  omega
                · rw [uploadsIn_updateUploads_ne _ _ _ _ hu]
                  have hsub : List.Sublist
                      ((s.files.filter (fun q => q.id ≠ fid)).filter (fun q => q.userId == uid))
                      (s.files.filter (fun q => q.userId == uid)) :=
                    (List.filter_sublist s.files).filter _
                  have hlen := hsub.length_le
                  have hcount := hInv.counter uid
                  rw [ownedCount] at hcount
                  show ((((s.files.filter (fun q => q.id ≠ fid)).filter
                      (fun q => q.userId == uid)).length : Int)) ≤ uploadsIn s.users uid
                  omega
      · have hs : (deleteFile s t fid fl).1 = s := by
          simp [deleteFile, hv, hfind, hown]
        rw [hs]; exact hInv
  · have hs : (deleteFile s t fid fl).1 = s := by simp [deleteFile, hv]
    rw [hs]; exact hInv

theorem inv_step (s : ServerState) (e : Event) (hInv : StateInv s)
    (hne : noCounterFault e = true) : StateInv (step s e) := by
  cases e with
  | signupEv em p dn => exact inv_signup s em p dn hInv
  | loginEv em p => exact hInv
  | uploadEv t f fl =>
    have hc : fl.incrementFails = false := by simpa [noCounterFault] using hne
    exact inv_upload s t f fl hInv hc
  | listEv t => exact hInv
  | deleteEv t fid fl => exact inv_delete s t fid fl hInv
  | tick ms => exact inv_now s _ hInv

theorem inv_foldl (tr : List Event) : ∀ s : ServerState, StateInv s →
    (∀ e ∈ tr, noCounterFault e = true) → StateInv (tr.foldl step s) := by
  induction tr with
  | nil => intro s hs _; exact hs
  | cons e es ih =>
    intro s hs h
    exact ih (step s e) (inv_step s e hs (h e (by simp)))
      (fun x hx => h x (by simp [hx]))

/-- Amended claim C7: every principal's uploadCount starts at 0 on
signup and is mutated only by the upload increment and the delete
decrement; in every execution in which the increment-counter stage
never fails, the count stays at least the number of FileRecords the
principal owns, hence never becomes negative.  (When an upload's
increment stage fails, a later successful delete of that record drives
the count below zero — see the counterexample.) -/
theorem uploads_nonneg (tr : List Event)
    (h : ∀ e ∈ tr, noCounterFault e = true) (uid : String) :
    0 ≤ uploadsOf (run tr) uid := by
  have hInv : StateInv (run tr) := inv_foldl tr initialState inv_initialState h
  have hc := hInv.counter uid
  exact le_trans (Int.natCast_nonneg _) hc

/-- Witness for `uploads_nonneg` on a fault-free signup, upload and
delete execution. -/
theorem uploads_nonneg_witness :
    0 ≤ uploadsOf (run [.signupEv "a@b.c" "pw" none,
      .uploadEv "u0" (some demoFile) noUploadFaults,
      .deleteEv "u0" 0 noDeleteFaults]) "u0" :=
  uploads_nonneg [.signupEv "a@b.c" "pw" none,
      .uploadEv "u0" (some demoFile) noUploadFaults,
      .deleteEv "u0" 0 noDeleteFaults] (by decide) "u0"
